import Mathlib

/-!
Shallow embedding of the blog content-serving core in `app/main.py`:
the per-file content cache (`get_blog_content`), the list aggregation
cache (`get_all_blogs`), the single-post handler (`get_blog`) with its
page response cache, and the excerpt derivation (truncation at 300
characters plus heading-tag stripping).

Modelling conventions:
* Wall-clock times and file modification times are natural numbers.
* The filesystem is an association list `List (String × File)` of the
  regular files in the blog directory, in `listdir` order.
* The external markdown library (and the file read, both of which can
  raise) is a parameter `render : List Char → Option (List Char × Meta)`;
  `none` models an exception during read or parse.
* Caches keyed by strings are functions `String → Option _`.
* `asyncio.gather` over the per-file fetches is modelled as the
  sequential left-to-right schedule (results in task order, cache
  updates threaded through).
-/

namespace Blog

/-- Constant from `app/main.py`: files excluded from the post listing. -/
def IGNORED_FILES : List String := ["about.md"]

/-- Constant from `app/main.py`: `CACHE_DURATION = 60 * 60 * 5`. -/
def CACHE_DURATION : Nat := 60 * 60 * 5

/-! ### Excerpt machinery

`get_blog_content` builds the excerpt from the rendered HTML with
`html_content[:300]`, a trim back to the last space with `"..."`
appended when truncated, and finally
`re.sub(r"<h[1-6]>.*?</h[1-6]>", "", excerpt, flags=re.DOTALL)`. -/

/-- Does the character list start with a heading opening tag
as matched by the pattern fragment `<h[1-6]>`. -/
def isOpenAt : List Char → Bool
  | '<' :: 'h' :: d :: '>' :: _ => decide ('1' ≤ d ∧ d ≤ '6')
  | _ => false

/-- Does the character list start with a heading closing tag
as matched by the pattern fragment `</h[1-6]>`. -/
def isCloseAt : List Char → Bool
  | '<' :: '/' :: 'h' :: d :: '>' :: _ => decide ('1' ≤ d ∧ d ≤ '6')
  | _ => false

/-- Lazy search of `.*?</h[1-6]>`: the number of characters consumed up
to and including the earliest heading closing tag, if one occurs. -/
def findClose : List Char → Option Nat
  | [] => none
  | c :: rest =>
    if isCloseAt (c :: rest) then some 5
    else (findClose rest).map (fun k => k + 1)

/-- Scanner for `re.sub(r"<h[1-6]>.*?</h[1-6]>", "", s, flags=re.DOTALL)`:
scan left to right; at a heading opening tag with a later closing tag,
delete through the earliest closing tag and resume after it; every
other character is kept. The second argument counts characters still
to be deleted from a match in progress. -/
def stripHAux : List Char → Nat → List Char
  | [], _ => []
  | _ :: rest, skip + 1 => stripHAux rest skip
  | c :: rest, 0 =>
    if isOpenAt (c :: rest) then
      match findClose (rest.drop 3) with
      | some k => stripHAux rest (3 + k)
      | none => c :: stripHAux rest 0
    else c :: stripHAux rest 0

/-- The substitution `re.sub(r"<h[1-6]>.*?</h[1-6]>", "", s, flags=re.DOTALL)`. -/
def stripH (cs : List Char) : List Char :=
  stripHAux cs 0

/-- Python `str.rfind(" ")`: index of the last space character, if any. -/
def rfindSpace : List Char → Option Nat
  | [] => none
  | c :: rest =>
    match rfindSpace rest with
    | some i => some (i + 1)
    | none => if c = ' ' then some 0 else none

/-- The excerpt window before heading stripping: the first 300
characters of the rendered HTML; when the HTML was longer, trimmed back
to the last space (if any) with `...` appended. -/
def preExcerpt (html : List Char) : List Char :=
  if 300 < html.length then
    match rfindSpace (html.take 300) with
    | some i => (html.take 300).take i ++ ['.', '.', '.']
    | none => html.take 300 ++ ['.', '.', '.']
  else html.take 300

/-- The excerpt computation of `get_blog_content` (lines 80-90 of
`app/main.py`): truncation to the 300-character window, then heading
spans removed. -/
def mkExcerpt (html : List Char) : List Char :=
  stripH (preExcerpt html)

/-- Is any heading opening tag `<h1>`..`<h6>` present in the string. -/
def hasOpenTag : List Char → Bool
  | [] => false
  | c :: rest => isOpenAt (c :: rest) || hasOpenTag rest

/-! ### Data model -/

/-- Front-matter metadata as produced by the markdown `meta` extension:
each key maps to a list of string values. -/
abbrev Meta := List (String × List String)

/-- The per-file result dictionary built by `get_blog_content`. -/
structure BlogData where
  excerpt : List Char
  metadata : Meta
  path : String
  html_content : List Char
deriving DecidableEq

/-- An entry of `blog_content_cache`: the data plus the file
modification time and wall-clock fill time observed at cache fill. -/
structure CacheEntry where
  data : BlogData
  mtime : Nat
  timestamp : Nat
deriving DecidableEq

/-- A regular file of the blog directory: modification time and raw
markdown content. -/
structure File where
  mtime : Nat
  content : List Char
deriving DecidableEq

/-- The external markdown renderer together with the file read; `none`
models an exception raised while reading or parsing. -/
abbrev Render := List Char → Option (List Char × Meta)

/-- The `blog_content_cache` map. -/
abbrev CCache := String → Option CacheEntry

/-- Model of `listdir` + `path.getmtime` + file open: first file of the listing
with the given name, if present. -/
def lookupFs : List (String × File) → String → Option File
  | [], _ => none
  | (n, f) :: rest, k => if n = k then some f else lookupFs rest k

/-- Store a value in a string-keyed cache map. -/
def updateC (c : CCache) (k : String) (v : CacheEntry) : CCache :=
  fun s => if s = k then some v else c s

/-- First lookup in a metadata mapping (`meta.get`). -/
def metaLookup : Meta → String → Option (List String)
  | [], _ => none
  | (k, v) :: rest, key => if k = key then some v else metaLookup rest key

/-- The result dictionary `get_blog_content` builds from the rendered
HTML and metadata: excerpt, metadata, `file_name[:-3]`, full HTML. -/
def mkResult (file_name : String) (html : List Char) (meta : Meta) : BlogData :=
  ⟨mkExcerpt html, meta, file_name.dropRight 3, html⟩

/-- The `try` block of `get_blog_content`: read and render the file;
on success store a fresh cache entry, on an exception return the
not-found sentinel and leave the cache unchanged. -/
def refreshContent (render : Render) (file_name : String) (file : File)
    (now : Nat) (cache : CCache) : Option BlogData × CCache :=
  match render file.content with
  | none => (none, cache)
  | some (html, meta) =>
    (some (mkResult file_name html meta),
      updateC cache file_name ⟨mkResult file_name html meta, file.mtime, now⟩)

/-- Function `get_blog_content(file_name, force_refresh)` of `app/main.py`:
returns the result (or `none` for not-found) and the updated
`blog_content_cache`. The cached entry is served when present and its
stored mtime equals the file's current mtime. -/
def get_blog_content (render : Render) (fs : List (String × File))
    (now : Nat) (cache : CCache) (file_name : String)
    (force_refresh : Bool) : Option BlogData × CCache :=
  match lookupFs fs file_name with
  | none => (none, cache)
  | some file =>
    match (if force_refresh then none else cache file_name) with
    | some entry =>
      if entry.mtime = file.mtime then (some entry.data, cache)
      else refreshContent render file_name file now cache
    | none => refreshContent render file_name file now cache

/-! ### List aggregation (`get_all_blogs`) -/

/-- The mutable state read and written by `get_all_blogs`:
`blog_content_cache`, `blog_list_cache` (content and timestamp) and the
`file_mtimes` tracking table. -/
structure ListState where
  contentCache : CCache
  listContent : Option (List BlogData)
  listTimestamp : Nat
  fileMtimes : String → Option Nat

/-- The non-ignored regular files of the blog directory, in listing
order (the `blog_files` list comprehension). -/
def blogFiles (fs : List (String × File)) : List (String × File) :=
  fs.filter fun p => !(IGNORED_FILES.contains p.1)

/-- The modified-file scan of `get_all_blogs`: some non-ignored regular
file is untracked or has an mtime differing from `file_mtimes`. -/
def anyModified (fs : List (String × File)) (m : String → Option Nat) : Bool :=
  fs.any fun p =>
    !(IGNORED_FILES.contains p.1) &&
      (match m p.1 with
       | none => true
       | some t => decide (t ≠ p.2.mtime))

/-- The result `get_blog_content` computes for a file served from a
cold cache: the fresh parse of its content, or the not-found sentinel
when reading or parsing raises. -/
def freshEntry (render : Render) (p : String × File) : Option BlogData :=
  (render p.2.content).map fun r => mkResult p.1 r.1 r.2

/-- The `asyncio.gather` over `get_blog_content` tasks, modelled as the
sequential schedule: results in task order, cache updates threaded. -/
def runAll (render : Render) (fs : List (String × File)) (now : Nat) :
    CCache → List String → List (Option BlogData) × CCache
  | cache, [] => ([], cache)
  | cache, f :: rest =>
    let r := get_blog_content render fs now cache f false
    let rs := runAll render fs now r.2 rest
    (r.1 :: rs.1, rs.2)

/-- Function `get_all_blogs(force_refresh)` of `app/main.py`: returns
`blog_list_cache["content"]` and the updated state. Refresh happens
when forced, when the list cache timestamp is outside the TTL, or when
some non-ignored file is untracked or modified. -/
def get_all_blogs (render : Render) (fs : List (String × File))
    (now : Nat) (st : ListState) (force_refresh : Bool) :
    Option (List BlogData) × ListState :=
  let refresh_needed :=
    force_refresh || !(decide (now - st.listTimestamp < CACHE_DURATION)) ||
      anyModified fs st.fileMtimes
  if refresh_needed then
    let names := (blogFiles fs).map Prod.fst
    let ran := runAll render fs now st.contentCache names
    let content := ran.1.filterMap id
    let mtimes' : String → Option Nat := fun n =>
      if names.contains n then (lookupFs fs n).map File.mtime
      else st.fileMtimes n
    (some content, ⟨ran.2, some content, now, mtimes'⟩)
  else (st.listContent, st)

/-! ### Single-post handler (`get_blog`) and page response cache -/

/-- The data handed to the template by the single-post handler. -/
structure Response where
  content : List Char
  title : String
deriving DecidableEq

/-- An entry of `blog_page_cache`. -/
structure PageEntry where
  data : Response
  timestamp : Nat
deriving DecidableEq

/-- The `blog_page_cache` map. -/
abbrev PCache := String → Option PageEntry

/-- Store a value in the page response cache. -/
def updateP (c : PCache) (k : String) (v : PageEntry) : PCache :=
  fun s => if s = k then some v else c s

/-- Function `is_cache_valid` of `app/main.py` on the entry's timestamp (the
entry dictionaries are always truthy, so only the TTL check remains). -/
def is_cache_valid (timestamp now : Nat) : Bool :=
  decide (now - timestamp < CACHE_DURATION)

/-- The fallback response rendered when no blog content is found. -/
def fallbackResponse : Response :=
  ⟨"<p>No blog content found</p>".toList, "No blog found"⟩

/-- The expression `meta.get("title", ["TITLE"])[0]` (the values of the `meta`
extension are always lists, so the `isinstance` check always takes the
list branch); `none` models the `IndexError` raised on an empty list. -/
def extractTitle (meta : Meta) : Option String :=
  match metaLookup meta "title" with
  | none => some "TITLE"
  | some (t :: _) => some t
  | some [] => none

/-- The body of `get_blog` past the page-cache check: fetch content,
build the response, store it in the page cache; on the `IndexError`
exception path return the fallback without caching. -/
def get_blog_miss (render : Render) (fs : List (String × File))
    (now : Nat) (cc : CCache) (pc : PCache) (filename : String)
    (cache_key : String) : Response × CCache × PCache :=
  match get_blog_content render fs now cc (filename ++ ".md") false with
  | (some d, cc') =>
    match extractTitle d.metadata with
    | some t =>
      (⟨d.html_content, t⟩, cc',
        updateP pc cache_key ⟨⟨d.html_content, t⟩, now⟩)
    | none => (fallbackResponse, cc', pc)
  | (none, cc') =>
    (fallbackResponse, cc', updateP pc cache_key ⟨fallbackResponse, now⟩)

/-- Handler `get_blog(request, filename)` of `app/main.py`: serve the page
response cache entry when present and within the TTL, otherwise build
and cache the response. -/
def get_blog (render : Render) (fs : List (String × File)) (now : Nat)
    (cc : CCache) (pc : PCache) (filename : String) :
    Response × CCache × PCache :=
  match pc ("blog_" ++ filename) with
  | some entry =>
    if is_cache_valid entry.timestamp now then (entry.data, cc, pc)
    else get_blog_miss render fs now cc pc filename ("blog_" ++ filename)
  | none => get_blog_miss render fs now cc pc filename ("blog_" ++ filename)

/-! ### Concrete fixtures used in witnesses and counterexamples -/

/-- A heading opening tag `<hd>`. -/
def openT (d : Char) : List Char := ['<', 'h', d, '>']

/-- A heading closing tag `</hd>`. -/
def closeT (d : Char) : List Char := ['<', '/', 'h', d, '>']

/-- Rendered HTML of a heading longer than the excerpt window, as the
markdown renderer produces for a `#` heading made of one 297-character
word: the closing tag falls beyond character 300. -/
def longHeading : List Char :=
  '<' :: 'h' :: '1' :: '>' :: (List.replicate 297 'a' ++ ['<', '/', 'h', '1', '>'])

/-- A renderer that echoes the content with no metadata. -/
def render0 : Render := fun c => some (c, [])

/-- A renderer that raises on the content `bad` and echoes otherwise. -/
def renderB : Render :=
  fun c => if c = ['b', 'a', 'd'] then none else some (c, [])

/-- A renderer producing a `title: Hello` front-matter entry. -/
def renderT : Render := fun c => some (c, [("title", ["Hello"])])

/-- The empty content cache. -/
def emptyC : CCache := fun _ => none

/-- The empty page response cache. -/
def emptyP : PCache := fun _ => none

/-- The startup list-aggregation state: empty caches, zero timestamp. -/
def stEmpty : ListState := ⟨emptyC, none, 0, fun _ => none⟩

/-- A stale cached result for `a.md`. -/
def oldData : BlogData := ⟨[], [], "a", []⟩

/-- A one-file filesystem. -/
def fs1 : List (String × File) := [("a.md", ⟨5, ['x']⟩)]

/-- A content cache holding `oldData` for `a.md`, filled at time 0 with
matching mtime 5. -/
def cCache1 : CCache :=
  fun s => if s = "a.md" then some ⟨oldData, 5, 0⟩ else none

/-- A two-file filesystem where `b.md` has unparseable content. -/
def fs2 : List (String × File) := [("a.md", ⟨1, ['o', 'k']⟩), ("b.md", ⟨2, ['b', 'a', 'd']⟩)]

/-- A concrete cached page response. -/
def respX : Response := ⟨['R'], "R"⟩

/-- A page cache holding `respX` for slug `x`, filled at time 0. -/
def pCache1 : PCache :=
  fun s => if s = "blog_x" then some ⟨respX, 0⟩ else none

/-- A filesystem in which `x.md` exists (used to show a page-cache hit
ignores the filesystem). -/
def fsX : List (String × File) := [("x.md", ⟨9, ['z']⟩)]

/-! ### Lemmas about the excerpt machinery -/

/-- Skipping is the same as dropping: a match in progress deletes
exactly the counted characters. -/
theorem stripHAux_skip : ∀ (cs : List Char) (n : Nat),
    stripHAux cs n = stripHAux (cs.drop n) 0 := by
  intro cs
  induction cs with
  | nil => intro n; cases n <;> rfl
  | cons c rest ih =>
    intro n
    cases n with
    | zero => rfl
    | succ m =>
      show stripHAux rest m = _
      rw [ih m]
      rfl

/-- A character that does not open a heading tag is kept. -/
theorem stripH_cons_of_not_open (c : Char) (rest : List Char)
    (h : isOpenAt (c :: rest) = false) :
    stripH (c :: rest) = c :: stripH rest := by
  show stripHAux (c :: rest) 0 = c :: stripHAux rest 0
  rw [stripHAux]
  rw [h]
  simp

/-- The scanner never produces more characters than it consumes. -/
theorem stripHAux_length_le : ∀ (cs : List Char) (n : Nat),
    (stripHAux cs n).length ≤ cs.length := by
  intro cs
  induction cs with
  | nil => intro n; cases n <;> simp [stripHAux]
  | cons c rest ih =>
    intro n
    cases n with
    | succ m =>
      calc (stripHAux rest m).length ≤ rest.length := ih m
        _ ≤ (c :: rest).length := by simp
    | zero =>
      rw [stripHAux]
      split
      · split
        · calc (stripHAux rest _).length ≤ rest.length := ih _
            _ ≤ (c :: rest).length := by simp
        · simpa using ih 0
      · simpa using ih 0

/-- Heading stripping never lengthens the excerpt. -/
theorem stripH_length_le (cs : List Char) : (stripH cs).length ≤ cs.length :=
  stripHAux_length_le cs 0

/-- The index returned by the last-space search is a valid index. -/
theorem rfindSpace_lt : ∀ (cs : List Char) (i : Nat),
    rfindSpace cs = some i → i < cs.length := by
  intro cs
  induction cs with
  | nil => intro i h; simp [rfindSpace] at h
  | cons c rest ih =>
    intro i h
    rw [rfindSpace] at h
    cases hr : rfindSpace rest with
    | some j =>
      rw [hr] at h
      cases h
      have := ih j hr
      simp only [List.length_cons]
      omega
    | none =>
      rw [hr] at h
      by_cases hc : c = ' '
      · rw [if_pos hc] at h
        cases h
        simp
      · rw [if_neg hc] at h
        cases h

/-- C8: for every rendered HTML input, the excerpt computed by
`get_blog_content` has length at most 300 plus the length of the
trailing ellipsis marker, i.e. at most 303 characters. -/
theorem excerpt_length_le_303 (html : List Char) :
    (mkExcerpt html).length ≤ 303 := by
  have htake : (html.take 300).length ≤ 300 := by
    simp only [List.length_take]
    omega
  have hpre : (preExcerpt html).length ≤ 303 := by
    unfold preExcerpt
    split
    · split
      · rename_i i hi
        have hix : i < (html.take 300).length := rfindSpace_lt _ i hi
        simp only [List.length_take] at hix
        simp only [List.length_append, List.length_take, List.length_cons,
          List.length_nil]
        omega
      · simp only [List.length_append, List.length_cons, List.length_nil]
        omega
    · omega
  calc (mkExcerpt html).length ≤ (preExcerpt html).length :=
      stripH_length_le _
    _ ≤ 303 := hpre

/-- The lazy search finds the closing tag appended after a closing-free
body. -/
theorem findClose_concat (e : Char) (he : '1' ≤ e ∧ e ≤ '6') :
    ∀ (body post : List Char),
      (∀ j, j < body.length → isCloseAt ((body ++ closeT e ++ post).drop j) = false) →
      findClose (body ++ closeT e ++ post) = some (body.length + 5) := by
  intro body
  induction body with
  | nil =>
    intro post _
    simp only [List.nil_append, closeT, List.cons_append]
    rw [findClose]
    rw [if_pos]
    · simp
    · simp only [isCloseAt, decide_eq_true_eq]
      exact he
  | cons b body' ih =>
    intro post h
    have h0 : isCloseAt (b :: (body' ++ (closeT e ++ post))) = false := by
      have := h 0 (by simp)
      simpa using this
    have hshift : ∀ j, j < body'.length →
        isCloseAt ((body' ++ closeT e ++ post).drop j) = false := by
      intro j hj
      have := h (j + 1) (by simp only [List.length_cons]; omega)
      simpa using this
    have hrec := ih post hshift
    simp only [List.append_assoc] at hrec
    simp only [List.cons_append, List.append_assoc]
    rw [findClose]
    rw [if_neg (by simp [h0])]
    rw [hrec]
    simp only [Option.map_some', List.length_cons, Option.some.injEq]
    try omega

/-- Characters preceding any heading opening tag are kept verbatim. -/
theorem stripH_clean :
    ∀ (pre t : List Char),
      (∀ i, i < pre.length → isOpenAt ((pre ++ t).drop i) = false) →
      stripH (pre ++ t) = pre ++ stripH t := by
  intro pre
  induction pre with
  | nil => intro t _; simp
  | cons c pre' ih =>
    intro t h
    have h0 : isOpenAt (c :: (pre' ++ t)) = false := by
      have := h 0 (by simp)
      simpa using this
    have hshift : ∀ i, i < pre'.length → isOpenAt ((pre' ++ t).drop i) = false := by
      intro i hi
      have := h (i + 1) (by simp only [List.length_cons]; omega)
      simpa using this
    simp only [List.cons_append]
    rw [stripH_cons_of_not_open c _ (by simpa using h0), ih t hshift]

/-- A complete heading element (opening tag, closing-free body, closing
tag) at the scan position is deleted entirely, and the scan resumes
after its closing tag. -/
theorem stripH_cons_open (c : Char) (rest : List Char) (k : Nat)
    (hopen : isOpenAt (c :: rest) = true)
    (hfc : findClose (rest.drop 3) = some k) :
    stripH (c :: rest) = stripH (rest.drop (3 + k)) := by
  unfold stripH
  rw [stripHAux]
  rw [if_pos hopen, hfc]
  exact stripHAux_skip rest (3 + k)

theorem stripH_open_elem (d e : Char) (hd : '1' ≤ d ∧ d ≤ '6')
    (he : '1' ≤ e ∧ e ≤ '6') (body post : List Char)
    (hbody : ∀ j, j < body.length →
      isCloseAt ((body ++ closeT e ++ post).drop j) = false) :
    stripH (openT d ++ (body ++ closeT e ++ post)) = stripH post := by
  have hopen : isOpenAt ('<' :: 'h' :: d :: '>' :: (body ++ (closeT e ++ post))) = true := by
    simp only [isOpenAt, decide_eq_true_eq]
    exact hd
  have hfc := findClose_concat e he body post hbody
  simp only [List.append_assoc] at hfc
  have hfc3 : (('h' :: d :: '>' :: (body ++ (closeT e ++ post))).drop 3)
      = body ++ (closeT e ++ post) := rfl
  simp only [openT, List.cons_append, List.nil_append, List.append_assoc]
  rw [stripH_cons_open '<' ('h' :: d :: '>' :: (body ++ (closeT e ++ post)))
      (body.length + 5) hopen (by rw [hfc3]; exact hfc)]
  have hdrop : ('h' :: d :: '>' :: (body ++ (closeT e ++ post))).drop
      (3 + (body.length + 5)) = post := by
    rw [← List.drop_drop]
    have h3 : ('h' :: d :: '>' :: (body ++ (closeT e ++ post))).drop 3
        = body ++ (closeT e ++ post) := rfl
    rw [h3, ← List.append_assoc]
    exact List.drop_left' (by simp [closeT])
  rw [hdrop]

/-- C2 (amended): a complete heading element that lies wholly within
the excerpt window (no truncation, opening tag not preceded by another
opening tag, body free of closing tags) is stripped from the excerpt
together with its contents; the claim as stated fails when truncation
cuts off a heading's closing tag. -/
theorem excerpt_strips_complete_heading (pre body post : List Char) (d e : Char)
    (hd : '1' ≤ d ∧ d ≤ '6') (he : '1' ≤ e ∧ e ≤ '6')
    (hlen : (pre ++ openT d ++ body ++ closeT e ++ post).length ≤ 300)
    (hpre : ∀ i, i < pre.length →
      isOpenAt ((pre ++ openT d ++ body ++ closeT e ++ post).drop i) = false)
    (hbody : ∀ j, j < body.length →
      isCloseAt ((body ++ closeT e ++ post).drop j) = false) :
    mkExcerpt (pre ++ openT d ++ body ++ closeT e ++ post) = pre ++ stripH post := by
  have hassoc : pre ++ openT d ++ body ++ closeT e ++ post
      = pre ++ (openT d ++ (body ++ closeT e ++ post)) := by
    simp [List.append_assoc]
  have hpre' : preExcerpt (pre ++ openT d ++ body ++ closeT e ++ post)
      = pre ++ openT d ++ body ++ closeT e ++ post := by
    unfold preExcerpt
    rw [if_neg (by omega), List.take_of_length_le hlen]
  unfold mkExcerpt
  rw [hpre', hassoc]
  rw [stripH_clean pre _ (fun i hi => by rw [← hassoc]; exact hpre i hi)]
  rw [stripH_open_elem d e hd he body post hbody]

/-- Witness: a complete heading inside a short excerpt window is
stripped. -/
theorem excerpt_strips_complete_heading_witness :
    mkExcerpt (['x', ' '] ++ openT '1' ++ ['T'] ++ closeT '1' ++ ['y']) =
      ['x', ' '] ++ stripH ['y'] :=
  excerpt_strips_complete_heading ['x', ' '] ['T'] ['y'] '1' '1'
    (by decide) (by decide) (by decide) (by decide) (by decide)

set_option maxRecDepth 4000 in
/-- C2 counterexample: for the rendered HTML of a single heading longer
than 300 characters, the truncated excerpt still contains the `<h1>`
opening tag after the heading-stripping step. -/
theorem excerpt_keeps_truncated_heading_tag :
    hasOpenTag (mkExcerpt longHeading) = true ∧ 300 < longHeading.length := by
  exact ⟨by decide, by decide⟩

/-! ### Per-file content cache (claims C1, C6, C7 part 1) -/

/-- C1 (amended): for an existing file with a cached entry,
`get_blog_content` treats the entry as valid exactly when the file's
current modification time equals the entry's stored modification time;
the stored fill timestamp (TTL) is never consulted. On an mtime
mismatch the file is re-read and re-parsed. -/
theorem content_cache_valid_iff_mtime (render : Render)
    (fs : List (String × File)) (now : Nat) (cache : CCache)
    (fn : String) (file : File) (entry : CacheEntry)
    (hf : lookupFs fs fn = some file) (hc : cache fn = some entry) :
    (entry.mtime = file.mtime →
      get_blog_content render fs now cache fn false = (some entry.data, cache)) ∧
    (entry.mtime ≠ file.mtime →
      get_blog_content render fs now cache fn false =
        refreshContent render fn file now cache) := by
  unfold get_blog_content
  rw [hf]
  constructor
  · intro hm
    simp only [Bool.false_eq_true, if_false, hc]
    rw [if_pos hm]
  · intro hm
    simp only [Bool.false_eq_true, if_false, hc]
    rw [if_neg hm]

/-- Witness: a cache hit on matching mtime at concrete inputs. -/
theorem content_cache_valid_iff_mtime_witness :
    get_blog_content render0 fs1 7 cCache1 "a.md" false =
      (some oldData, cCache1) :=
  (content_cache_valid_iff_mtime render0 fs1 7 cCache1 "a.md"
    ⟨5, ['x']⟩ ⟨oldData, 5, 0⟩ rfl rfl).1 rfl

/-- C1 counterexample: with a cached entry whose fill time is 100000
seconds in the past (far beyond the 18000-second TTL) but whose stored
mtime still matches, `get_blog_content` serves the stale cached data
and performs no re-read or re-parse (the cache is returned unchanged),
and the served data differs from what a re-parse would produce. -/
theorem content_cache_serves_expired_entry :
    get_blog_content render0 fs1 100000 cCache1 "a.md" false =
      (some oldData, cCache1) ∧
    ¬ ((100000 : Nat) - 0 < CACHE_DURATION) ∧
    oldData ≠ mkResult "a.md" ['x'] [] := by
  refine ⟨rfl, by decide, by decide⟩

/-- C6: for a filename whose file does not exist, `get_blog_content`
returns the not-found sentinel and leaves the cache unchanged, and the
single-post handler (on a page-cache miss) renders the fixed fallback
"No blog content found" response rather than failing. -/
theorem missing_file_renders_fallback (render : Render)
    (fs : List (String × File)) (now : Nat) (cc : CCache) (pc : PCache)
    (filename : String)
    (hf : lookupFs fs (filename ++ ".md") = none)
    (hp : pc ("blog_" ++ filename) = none) :
    get_blog_content render fs now cc (filename ++ ".md") false = (none, cc) ∧
    (get_blog render fs now cc pc filename).1 = fallbackResponse := by
  have h1 : get_blog_content render fs now cc (filename ++ ".md") false
      = (none, cc) := by
    unfold get_blog_content
    rw [hf]
  refine ⟨h1, ?_⟩
  unfold get_blog
  simp only [hp]
  unfold get_blog_miss
  simp only [h1]

/-- Witness: requesting slug `x` against an empty filesystem yields the
fallback. -/
theorem missing_file_renders_fallback_witness :
    get_blog_content render0 [] 3 emptyC ("x" ++ ".md") false = (none, emptyC) ∧
    (get_blog render0 [] 3 emptyC emptyP "x").1 = fallbackResponse :=
  missing_file_renders_fallback render0 [] 3 emptyC emptyP "x" rfl rfl

/-! ### Page response cache (claims C3, C9, C10) -/

/-- The handler on a page-cache hit within the TTL serves the entry and
changes nothing. -/
theorem get_blog_hit (render : Render) (fs : List (String × File))
    (now : Nat) (cc : CCache) (pc : PCache) (filename : String)
    (entry : PageEntry)
    (hp : pc ("blog_" ++ filename) = some entry)
    (ht : now - entry.timestamp < CACHE_DURATION) :
    get_blog render fs now cc pc filename = (entry.data, cc, pc) := by
  unfold get_blog
  simp only [hp]
  rw [if_pos]
  simp only [is_cache_valid, decide_eq_true_eq]
  exact ht

/-- C3: while the page response cache holds an entry for the slug that
is within its TTL, the single-post handler returns the cached response
and touches neither the per-file content cache nor the filesystem (the
result is the same for every renderer, filesystem and content cache),
so the served page can be staler than the content cache's state. -/
theorem page_cache_hit_ignores_content (render : Render)
    (fs : List (String × File)) (now : Nat) (cc : CCache) (pc : PCache)
    (filename : String) (entry : PageEntry)
    (hp : pc ("blog_" ++ filename) = some entry)
    (ht : now - entry.timestamp < CACHE_DURATION) :
    get_blog render fs now cc pc filename = (entry.data, cc, pc) :=
  get_blog_hit render fs now cc pc filename entry hp ht

/-- Witness: a fresh page-cache entry is served unchanged even though
the filesystem has newer content for the slug. -/
theorem page_cache_hit_ignores_content_witness :
    get_blog render0 fsX 9 emptyC pCache1 "x" = (respX, emptyC, pCache1) :=
  page_cache_hit_ignores_content render0 fsX 9 emptyC pCache1 "x"
    ⟨respX, 0⟩ rfl (by decide)

/-- C9: on a page-cache miss for an existing, freshly parsed file, the
rendered page's title is the first value of the front-matter `title`
entry when one is present, and the placeholder `TITLE` when the front
matter has no title entry. -/
theorem title_from_front_matter (render : Render)
    (fs : List (String × File)) (now : Nat) (cc : CCache) (pc : PCache)
    (filename : String) (file : File) (html : List Char) (md : Meta)
    (hp : pc ("blog_" ++ filename) = none)
    (hf : lookupFs fs (filename ++ ".md") = some file)
    (hc : cc (filename ++ ".md") = none)
    (hr : render file.content = some (html, md)) :
    (∀ t ts, metaLookup md "title" = some (t :: ts) →
      (get_blog render fs now cc pc filename).1.title = t) ∧
    (metaLookup md "title" = none →
      (get_blog render fs now cc pc filename).1.title = "TITLE") := by
  have hmiss : get_blog_content render fs now cc (filename ++ ".md") false
      = (some (mkResult (filename ++ ".md") html md),
         updateC cc (filename ++ ".md")
           ⟨mkResult (filename ++ ".md") html md, file.mtime, now⟩) := by
    unfold get_blog_content
    rw [hf]
    simp only [Bool.false_eq_true, if_false, hc]
    unfold refreshContent
    simp only [hr]
  have hmeta : (mkResult (filename ++ ".md") html md).metadata = md := rfl
  constructor
  · intro t ts hti
    unfold get_blog
    simp only [hp]
    unfold get_blog_miss
    simp only [hmiss]
    unfold extractTitle
    simp only [hmeta, hti]
  · intro hti
    unfold get_blog
    simp only [hp]
    unfold get_blog_miss
    simp only [hmiss]
    unfold extractTitle
    simp only [hmeta, hti]

/-- Witness: `title: Hello` front matter yields the title `Hello`. -/
theorem title_from_front_matter_witness :
    (get_blog renderT fsX 2 emptyC emptyP "x").1.title = "Hello" :=
  (title_from_front_matter renderT fsX 2 emptyC emptyP "x"
    ⟨9, ['z']⟩ ['z'] [("title", ["Hello"])] rfl rfl rfl rfl).1 "Hello" [] rfl

/-- C10: when the single-post handler is invoked for a slug whose file
does not exist (and no valid page-cache entry exists), the fallback
response is stored in the page response cache under that slug's key,
and any later request within the page TTL is answered from that cached
fallback for every renderer, filesystem and content cache, including
states where the file has been created in the meantime. -/
theorem fallback_response_is_cached (render : Render)
    (fs : List (String × File)) (now : Nat) (cc : CCache) (pc : PCache)
    (filename : String)
    (hp : pc ("blog_" ++ filename) = none)
    (hf : lookupFs fs (filename ++ ".md") = none) :
    (get_blog render fs now cc pc filename).2.2 ("blog_" ++ filename) =
      some ⟨fallbackResponse, now⟩ ∧
    ∀ (render' : Render) (fs' : List (String × File)) (cc' : CCache)
      (now' : Nat), now' - now < CACHE_DURATION →
      (get_blog render' fs' now' cc'
        (get_blog render fs now cc pc filename).2.2 filename).1 =
        fallbackResponse := by
  have h1 : get_blog_content render fs now cc (filename ++ ".md") false
      = (none, cc) := by
    unfold get_blog_content
    rw [hf]
  have hcall : (get_blog render fs now cc pc filename).2.2
      = updateP pc ("blog_" ++ filename) ⟨fallbackResponse, now⟩ := by
    unfold get_blog
    simp only [hp]
    unfold get_blog_miss
    simp only [h1]
  have hkey : (get_blog render fs now cc pc filename).2.2 ("blog_" ++ filename)
      = some ⟨fallbackResponse, now⟩ := by
    rw [hcall]
    unfold updateP
    rw [if_pos rfl]
  refine ⟨hkey, ?_⟩
  intro render' fs' cc' now' ht
  rw [get_blog_hit render' fs' now' cc' _ filename
    ⟨fallbackResponse, now⟩ hkey ht]

/-- Witness: after a request for missing slug `x` at time 0, a request
at time 10 against a filesystem where `x.md` now exists still serves
the cached fallback. -/
theorem fallback_response_is_cached_witness :
    (get_blog render0 [] 0 emptyC emptyP "x").2.2 ("blog_" ++ "x") =
      some ⟨fallbackResponse, 0⟩ ∧
    (get_blog render0 fsX 10 emptyC
      (get_blog render0 [] 0 emptyC emptyP "x").2.2 "x").1 = fallbackResponse :=
  ⟨(fallback_response_is_cached render0 [] 0 emptyC emptyP "x" rfl rfl).1,
   (fallback_response_is_cached render0 [] 0 emptyC emptyP "x" rfl rfl).2
     render0 fsX emptyC 10 (by decide)⟩

/-! ### List aggregation (claims C4, C5, C7) -/

/-- In a listing with distinct names, lookup finds each pair. -/
theorem lookupFs_of_mem : ∀ (fs : List (String × File)),
    (fs.map Prod.fst).Nodup → ∀ p ∈ fs, lookupFs fs p.1 = some p.2 := by
  intro fs
  induction fs with
  | nil => intro _ p hp; exact absurd hp (List.not_mem_nil p)
  | cons q rest ih =>
    obtain ⟨n, f⟩ := q
    intro hnd p hp
    simp only [List.map_cons, List.nodup_cons] at hnd
    rcases List.mem_cons.mp hp with hq | hp'
    · subst hq
      unfold lookupFs
      rw [if_pos rfl]
    · have hne : n ≠ p.1 := by
        intro he
        apply hnd.1
        rw [he]
        exact List.mem_map_of_mem Prod.fst hp'
      unfold lookupFs
      rw [if_neg hne]
      exact ih hnd.2 p hp'

/-- Over names absent from the content cache, the gather returns the
fresh parse of each name, in task order. -/
theorem runAll_fresh (render : Render) (fs : List (String × File)) (now : Nat) :
    ∀ (names : List String) (cache : CCache), names.Nodup →
      (∀ n ∈ names, cache n = none) →
      (runAll render fs now cache names).1 =
        names.map fun n => (lookupFs fs n).bind fun file =>
          (render file.content).map fun r => mkResult n r.1 r.2 := by
  intro names
  induction names with
  | nil => intro cache _ _; rfl
  | cons n rest ih =>
    intro cache hnd hnone
    simp only [List.nodup_cons] at hnd
    have hn : cache n = none := hnone n (List.mem_cons_self n rest)
    simp only [runAll, List.map_cons]
    cases hfs : lookupFs fs n with
    | none =>
      have hcg : get_blog_content render fs now cache n false = (none, cache) := by
        unfold get_blog_content
        rw [hfs]
      simp only [hcg, hfs, Option.none_bind]
      rw [ih cache hnd.2 (fun m hm => hnone m (List.mem_cons_of_mem n hm))]
    | some file =>
      cases hr : render file.content with
      | none =>
        have hcg : get_blog_content render fs now cache n false = (none, cache) := by
          unfold get_blog_content
          rw [hfs]
          simp only [Bool.false_eq_true, if_false, hn]
          unfold refreshContent
          simp only [hr]
        simp only [hcg, hfs, hr, Option.some_bind, Option.map_none']
        rw [ih cache hnd.2 (fun m hm => hnone m (List.mem_cons_of_mem n hm))]
      | some r =>
        obtain ⟨html, md⟩ := r
        have hcg : get_blog_content render fs now cache n false
            = (some (mkResult n html md),
               updateC cache n ⟨mkResult n html md, file.mtime, now⟩) := by
          unfold get_blog_content
          rw [hfs]
          simp only [Bool.false_eq_true, if_false, hn]
          unfold refreshContent
          simp only [hr]
        have hupd : ∀ m ∈ rest,
            updateC cache n ⟨mkResult n html md, file.mtime, now⟩ m = none := by
          intro m hm
          unfold updateC
          rw [if_neg]
          · exact hnone m (List.mem_cons_of_mem n hm)
          · intro he
            exact hnd.1 (he ▸ hm)
        simp only [hcg, hfs, hr, Option.some_bind, Option.map_some']
        rw [ih _ hnd.2 hupd]

/-- Rebuilding the list with a cold content cache yields exactly the
fresh parse of each non-ignored file, in listing order, with not-found
results filtered out. -/
theorem rebuild_cold_cache (render : Render) (fs : List (String × File))
    (now : Nat) (st : ListState)
    (hc : ∀ n, st.contentCache n = none)
    (hnd : (fs.map Prod.fst).Nodup) :
    (get_all_blogs render fs now st true).1 =
      some ((blogFiles fs).filterMap (freshEntry render)) := by
  have hndn : ((blogFiles fs).map Prod.fst).Nodup :=
    ((List.filter_sublist fs).map Prod.fst).nodup hnd
  unfold get_all_blogs
  simp only [Bool.true_or]
  rw [if_pos trivial]
  rw [runAll_fresh render fs now _ _ hndn (fun n _ => hc n)]
  rw [List.filterMap_map]
  rw [List.filterMap_map]
  refine congrArg some (List.filterMap_congr fun p hp => ?_)
  have hl : lookupFs fs p.1 = some p.2 :=
    lookupFs_of_mem fs hnd p (List.mem_of_mem_filter hp)
  simp [Function.comp, hl, freshEntry]

/-- C4: `get_all_blogs` returns the cached sequence and state unchanged
when the cached result is within the TTL and every non-ignored file is
tracked with an unchanged modification time; otherwise it rebuilds: the
result is the gathered per-file fetches with not-found results filtered
out, stored with the fresh timestamp, with the content cache threaded
through the fetches and the tracking table updated to every non-ignored
file's current modification time. -/
theorem get_all_blogs_cached_or_rebuild (render : Render)
    (fs : List (String × File)) (now : Nat) (st : ListState) :
    (now - st.listTimestamp < CACHE_DURATION →
      anyModified fs st.fileMtimes = false →
      get_all_blogs render fs now st false = (st.listContent, st)) ∧
    (∀ frc : Bool,
      frc = true ∨ ¬ (now - st.listTimestamp < CACHE_DURATION) ∨
        anyModified fs st.fileMtimes = true →
      (get_all_blogs render fs now st frc).1 =
        some ((runAll render fs now st.contentCache
          ((blogFiles fs).map Prod.fst)).1.filterMap id) ∧
      (get_all_blogs render fs now st frc).2.listContent =
        (get_all_blogs render fs now st frc).1 ∧
      (get_all_blogs render fs now st frc).2.listTimestamp = now ∧
      (get_all_blogs render fs now st frc).2.contentCache =
        (runAll render fs now st.contentCache
          ((blogFiles fs).map Prod.fst)).2 ∧
      ∀ p ∈ blogFiles fs,
        (get_all_blogs render fs now st frc).2.fileMtimes p.1 =
          (lookupFs fs p.1).map File.mtime) := by
  constructor
  · intro h1 h2
    unfold get_all_blogs
    have hd : decide (now - st.listTimestamp < CACHE_DURATION) = true :=
      decide_eq_true h1
    simp only [hd, Bool.not_true, Bool.false_or, Bool.or_false, h2]
    simp
  · intro frc hor
    have hrn : (frc || !(decide (now - st.listTimestamp < CACHE_DURATION)) ||
        anyModified fs st.fileMtimes) = true := by
      rcases hor with h | h | h
      · simp [h]
      · simp [h]
      · simp [h]
    unfold get_all_blogs
    simp only [hrn, if_true, eq_self_iff_true, true_and]
    intro p hp
    have hcont : ((blogFiles fs).map Prod.fst).contains p.1 = true :=
      List.elem_iff.mpr (List.mem_map_of_mem Prod.fst hp)
    show (if ((blogFiles fs).map Prod.fst).contains p.1 = true
        then (lookupFs fs p.1).map File.mtime else st.fileMtimes p.1) =
      (lookupFs fs p.1).map File.mtime
    rw [if_pos hcont]

/-- Witness: an empty directory within the TTL is served from the list
cache, and a stale timestamp forces a rebuild with a fresh timestamp. -/
theorem get_all_blogs_cached_or_rebuild_witness :
    get_all_blogs render0 [] 0 stEmpty false = (stEmpty.listContent, stEmpty) ∧
    (get_all_blogs render0 fs1 100000 stEmpty false).2.listTimestamp = 100000 :=
  ⟨(get_all_blogs_cached_or_rebuild render0 [] 0 stEmpty).1 (by decide) rfl,
   ((get_all_blogs_cached_or_rebuild render0 fs1 100000 stEmpty).2 false
     (Or.inr (Or.inl (by decide)))).2.2.1⟩

/-- C5 (amended): the list view rebuilt with a cold content cache
contains exactly one entry per non-ignored regular file whose content
is read and rendered successfully, in directory listing order; files
whose read or parse fails are omitted. -/
theorem list_view_one_entry_per_parsed_file (render : Render)
    (fs : List (String × File)) (now : Nat) (st : ListState)
    (hc : ∀ n, st.contentCache n = none)
    (hnd : (fs.map Prod.fst).Nodup) :
    (get_all_blogs render fs now st true).1 =
      some ((blogFiles fs).filterMap (freshEntry render)) :=
  rebuild_cold_cache render fs now st hc hnd

/-- Witness: the rebuilt view over a concrete two-file directory. -/
theorem list_view_one_entry_per_parsed_file_witness :
    (∀ n, stEmpty.contentCache n = none) ∧
    (get_all_blogs render0 fs2 0 stEmpty true).1 =
      some ((blogFiles fs2).filterMap (freshEntry render0)) :=
  ⟨fun _ => rfl,
   list_view_one_entry_per_parsed_file render0 fs2 0 stEmpty
     (fun _ => rfl) (by decide)⟩

/-- C5 counterexample: with two non-ignored regular files of which
`b.md` fails to parse, the rebuilt list view holds one entry, not one
entry per non-ignored file. -/
theorem list_view_misses_failing_file :
    ((get_all_blogs renderB fs2 0 stEmpty true).1.getD []).length = 1 ∧
    (blogFiles fs2).length = 2 := by
  exact ⟨by decide, by decide⟩

/-- C7: when reading or parsing a file raises an exception,
`get_blog_content` returns the not-found sentinel for that file, and
list aggregation is not aborted: the rebuilt list omits that file's
result while every other non-ignored file that renders successfully
still contributes its entry. -/
theorem parse_failure_isolated (render : Render) (fs : List (String × File))
    (now : Nat) (st : ListState) (fn : String) (file : File)
    (hc : ∀ n, st.contentCache n = none)
    (hnd : (fs.map Prod.fst).Nodup)
    (hmem : (fn, file) ∈ fs)
    (hfail : render file.content = none) :
    (get_blog_content render fs now st.contentCache fn false).1 = none ∧
    (get_all_blogs render fs now st true).1 =
      some ((blogFiles fs).filterMap (freshEntry render)) ∧
    ∀ g gf r, (g, gf) ∈ fs → IGNORED_FILES.contains g = false →
      render gf.content = some r →
      mkResult g r.1 r.2 ∈ ((get_all_blogs render fs now st true).1.getD []) := by
  have hl : lookupFs fs fn = some file := lookupFs_of_mem fs hnd (fn, file) hmem
  have h2 := rebuild_cold_cache render fs now st hc hnd
  refine ⟨?_, h2, ?_⟩
  · unfold get_blog_content
    rw [hl]
    simp only [Bool.false_eq_true, if_false, hc fn]
    unfold refreshContent
    simp only [hfail]
  · intro g gf r hg hgn hr
    rw [h2]
    simp only [Option.getD_some]
    apply List.mem_filterMap.mpr
    refine ⟨(g, gf), ?_, ?_⟩
    · apply List.mem_filter.mpr
      refine ⟨hg, ?_⟩
      have hgb : (!(IGNORED_FILES.contains g)) = true := by
        rw [hgn]
        rfl
      exact hgb
    · simp [freshEntry, hr]

/-- Witness: `b.md` fails to parse yet `a.md` still appears in the
rebuilt list. -/
theorem parse_failure_isolated_witness :
    (get_blog_content renderB fs2 0 stEmpty.contentCache "b.md" false).1 = none ∧
    mkResult "a.md" ['o', 'k'] [] ∈
      ((get_all_blogs renderB fs2 0 stEmpty true).1.getD []) :=
  ⟨(parse_failure_isolated renderB fs2 0 stEmpty "b.md" ⟨2, ['b', 'a', 'd']⟩
      (fun _ => rfl) (by decide) (by decide) rfl).1,
   (parse_failure_isolated renderB fs2 0 stEmpty "b.md" ⟨2, ['b', 'a', 'd']⟩
      (fun _ => rfl) (by decide) (by decide) rfl).2.2 "a.md" ⟨1, ['o', 'k']⟩
      (['o', 'k'], []) (by decide) (by decide) rfl⟩

end Blog
